import Mathlib

/-!
Verification development for the edgecircuit-aipc repository.

Part I embeds the cloud-optimization client `src/web/src/utils/cloudOpt.ts`
(a TypeScript module) shallowly: the network is an explicit environment
value, `fetch` replies are data, and the `async` control flow becomes a
pure function returning an `Except` together with the list of API calls
it performed.

Part II models the search-driven logic-synthesis optimizer core (`vop.py`,
described by `src/verilog-optimization/README.md` and the specification):
the Python source itself is not part of the source tree, so those
definitions are modelled from the spec, as flagged in their doc comments.
-/

namespace CloudOpt

/-- Characters removed by JavaScript `String.prototype.trim`
(the ASCII whitespace subset relevant here). -/
def isJsWhitespace (c : Char) : Bool :=
  c = ' ' || c = '\t' || c = '\n' || c = '\r' || c = '\x0b' || c = '\x0c'

/-- JavaScript `code.trim()`: drop leading and trailing whitespace. -/
def jsTrim (s : String) : String :=
  String.mk (((s.data.dropWhile isJsWhitespace).reverse.dropWhile isJsWhitespace).reverse)

/-- The `OptimizationResult` interface of `src/web/src/utils/types.ts`
restricted to the fields `cloudOpt.ts` inspects. -/
structure OptimizationResult where
  status : String
  error_details : Option String
  optimized_code : Option String
  deriving DecidableEq, Repr

/-- A reply to one `fetch` call: either an HTTP-level failure
(`response.ok` false, carrying `statusText`) or a decoded JSON body. -/
inductive FetchReply (α : Type) where
  | ok (body : α)
  | httpError (statusText : String)
  deriving DecidableEq, Repr

/-- Body of a `/status/{job_id}` reply. -/
structure StatusResp where
  status : String
  message : String
  deriving DecidableEq, Repr

/-- The network environment `cloudOpt.ts` talks to: the health probe
outcome, the `/optimize` reply, the reply to the k-th `/status` poll,
and the `/result` reply. -/
structure CloudEnv where
  health : Bool
  submit : FetchReply String
  statusAt : Nat → FetchReply StatusResp
  resultReply : FetchReply OptimizationResult

/-- One network request, for the call log. -/
inductive ApiCall where
  | health
  | submit
  | statusQ
  | resultQ
  deriving DecidableEq, Repr

/-- `submitOptimizationJob`: throws on a non-ok response, else returns
`result.job_id`. -/
def submitOptimizationJob (env : CloudEnv) : Except String String :=
  match env.submit with
  | .httpError st => .error ("提交优化任务失败: " ++ st)
  | .ok jobId => .ok jobId

/-- `getOptimizationResult`: throws on a non-ok response; throws
`result.error_details || '优化失败'` when the fetched result's status is
not `'completed'` (JavaScript `||` also rejects the empty string); else
returns the result. -/
def getOptimizationResult (env : CloudEnv) : Except String OptimizationResult :=
  match env.resultReply with
  | .httpError st => .error ("获取优化结果失败: " ++ st)
  | .ok r =>
      if r.status ≠ "completed" then
        .error (match r.error_details with
                | some d => if d = "" then "优化失败" else d
                | none => "优化失败")
      else
        .ok r

/-- One iteration of the polling `while (true)` body before the catch:
`checkJobStatus` throws on a non-ok response; `'completed'` breaks the
loop (`true`); `'failed'` throws; anything else continues (`false`). -/
def pollStep (env : CloudEnv) (k : Nat) : Except String Bool :=
  match env.statusAt k with
  | .httpError st => .error ("查询任务状态失败: " ++ st)
  | .ok sr =>
      if sr.status = "completed" then .ok true
      else if sr.status = "failed" then .error ("优化任务失败: " ++ sr.message)
      else .ok false

/-- The polling loop of `runCloudOptimization`. Any exception of the try
block — including the `'failed'` throw — is re-thrown by the catch as
`无法查询任务状态: …`. The loop in the source has no bound; `fuel` caps the
iterations of the model, and running out is an error, never a normal
return. Also records the `/status` calls performed. -/
def pollLoop (env : CloudEnv) : Nat → Nat → Except String Unit × List ApiCall
  | 0, _ => (.error "轮询未在模型步数内结束", [])
  | fuel + 1, k =>
      match pollStep env k with
      | .error e => (.error ("无法查询任务状态: " ++ e), [.statusQ])
      | .ok true => (.ok (), [.statusQ])
      | .ok false =>
          let (r, calls) := pollLoop env fuel (k + 1)
          (r, .statusQ :: calls)

/-- `runCloudOptimization` of `src/web/src/utils/cloudOpt.ts`: rejects
blank code before any network traffic, probes health, submits the job,
polls until completion, then fetches the result. Returns the outcome
together with the list of API calls performed, in order. -/
def runCloudOptimization (env : CloudEnv) (fuel : Nat) (code : String) :
    Except String OptimizationResult × List ApiCall :=
  if (jsTrim code) = "" then
    (.error "请输入Verilog代码", [])
  else if !env.health then
    (.error "优化服务不可用，请确保后端服务正在运行在 http://localhost:8001", [.health])
  else
    match submitOptimizationJob env with
    | .error e => (.error e, [.health, .submit])
    | .ok _jobId =>
        match pollLoop env fuel 0 with
        | (.error e, calls) => (.error e, .health :: .submit :: calls)
        | (.ok (), calls) =>
            match getOptimizationResult env with
            | .error e => (.error e, .health :: .submit :: calls ++ [.resultQ])
            | .ok r => (.ok r, .health :: .submit :: calls ++ [.resultQ])

end CloudOpt

namespace Vop

/-- Modelled from the spec: `vop.py` itself is not in the source tree.
A `GateGraph` is the canonical two-input-gate (and-inverter)
representation; attributes are input count, output count, gate count and
logic-level count. Its function is recorded as an explicit truth table
(the list of output vectors over the enumerated input assignments),
matching the spec's "exhaustive truth-table comparison" oracle. -/
structure GateGraph where
  numInputs : Nat
  numOutputs : Nat
  gate_count : Nat
  level_count : Nat
  table : List (List Bool)
  deriving DecidableEq, Repr

/-- Functional equivalence of two gate graphs for all input assignments:
same input arity and identical truth tables. -/
def funEquiv (g c : GateGraph) : Prop :=
  g.numInputs = c.numInputs ∧ g.table = c.table

instance (g c : GateGraph) : Decidable (funEquiv g c) :=
  inferInstanceAs (Decidable (_ ∧ _))

/-- Modelled from the spec: a Sequence is an ordered list of pass tokens;
the empty token `""` is the no-op. -/
abbrev Sequence := List String

/-- Modelled from the spec: outcome of running one candidate sequence
through the external engine — a resulting graph, a hard-timeout expiry
(`TimeoutError`), or a non-zero exit / unparseable output
(`ExecutionError`). -/
inductive ExecOutcome where
  | ok (g : GateGraph)
  | timedOut
  | execError
  deriving DecidableEq, Repr

/-- Modelled from the spec: verdict of the combinational equivalence
check. Only `equivalent` is a conclusive proof of equivalence; `unknown`
and `timedOut` are inconclusive and must count as failure. -/
inductive VerifyOutcome where
  | equivalent
  | notEquivalent
  | unknown
  | timedOut
  deriving DecidableEq, Repr

/-- Modelled from the spec: per-trial failure reasons recorded in the
history. -/
inductive FailureKind where
  | timedOut
  | execError
  | notEquivalent
  | verifyUnknown
  | verifyTimeout
  deriving DecidableEq, Repr

/-- Modelled from the spec (§9): the external Yosys/ABC toolchain as an
injected abstract capability `{convert, applyPasses, checkEquivalence}`.
`equiv_conclusive` states the verifier contract of §4.3: an `equivalent`
verdict is a conclusive proof of functional equivalence for all input
assignments. -/
structure Engine where
  convert : String → Option String → Except String GateGraph
  applyPasses : GateGraph → Sequence → ExecOutcome
  checkEquiv : GateGraph → GateGraph → VerifyOutcome
  equiv_conclusive : ∀ g c, checkEquiv g c = VerifyOutcome.equivalent → funEquiv g c

/-- Modelled from the spec: quality evaluator
`cost = gate_count + delay_weight × level_count`. Rational-valued
(`delay_weight` defaults to 1/10); pure by construction. -/
def qor (w : ℚ) (g : GateGraph) : ℚ :=
  (g.gate_count : ℚ) + w * (g.level_count : ℚ)

/-- Modelled from the spec: the penalty cost assigned to invalid trials
so the sampler learns to avoid similar proposals. -/
def PENALTY : ℚ := 10 ^ 9

/-- Modelled from the spec: one recorded Trial — sequence, resulting
graph (if any), cost (defined only for valid trials), validity flag and
failure reason. -/
structure Trial where
  sequence : Sequence
  graph : Option GateGraph
  cost : Option ℚ
  valid : Bool
  failure : Option FailureKind
  deriving DecidableEq, Repr

/-- The cost the sampler observes: the trial's cost, or the penalty for
an invalid trial. -/
def trialCost (t : Trial) : ℚ := t.cost.getD PENALTY

/-- Modelled from the spec: one trial's sequential pipeline
execute → verify → score. Every non-happy path yields an invalid trial
with a reason and no cost; only a conclusive `equivalent` verdict yields
a valid, scored trial. -/
def runTrial (e : Engine) (w : ℚ) (golden : GateGraph) (seq : Sequence) : Trial :=
  match e.applyPasses golden seq with
  | .timedOut => ⟨seq, none, none, false, some .timedOut⟩
  | .execError => ⟨seq, none, none, false, some .execError⟩
  | .ok g =>
      match e.checkEquiv golden g with
      | .equivalent => ⟨seq, some g, some (qor w g), true, none⟩
      | .notEquivalent => ⟨seq, some g, none, false, some .notEquivalent⟩
      | .unknown => ⟨seq, some g, none, false, some .verifyUnknown⟩
      | .timedOut => ⟨seq, some g, none, false, some .verifyTimeout⟩

/-- Modelled from the spec (§9): the sequential model-based sampler as a
pluggable interface over its internal state `σ` (which includes the
random seed): `propose` draws a sequence of the configured length,
`observe` updates the model with a completed trial's
(sequence, cost-or-penalty) pair. -/
structure SamplerOps (σ : Type) where
  propose : σ → Nat → Sequence × σ
  observe : σ → Sequence → ℚ → σ

/-- Modelled from the spec: SearchState — golden graph, append-only trial
history, best valid trial so far, sampler state. -/
structure SearchState (σ : Type) where
  golden : GateGraph
  history : List Trial
  best : Option Trial
  sampler : σ

/-- Modelled from the spec: one search iteration. Propose, run the trial,
append it to the history, update the best valid trial (tie-break:
earliest found, i.e. replace only on strictly smaller cost), and observe
the sampler with the cost or the penalty. The golden graph is passed
through unchanged. -/
def step {σ : Type} (e : Engine) (w : ℚ) (L : Nat) (ops : SamplerOps σ)
    (st : SearchState σ) : SearchState σ :=
  let pr := ops.propose st.sampler L
  let t := runTrial e w st.golden pr.1
  { golden := st.golden
    history := st.history ++ [t]
    best :=
      if t.valid then
        match st.best with
        | none => some t
        | some b => if trialCost t < trialCost b then some t else some b
      else st.best
    sampler := ops.observe pr.2 t.sequence (trialCost t) }

/-- Modelled from the spec: run `n` further trials from a state. -/
def searchFrom {σ : Type} (e : Engine) (w : ℚ) (L : Nat) (ops : SamplerOps σ) :
    Nat → SearchState σ → SearchState σ
  | 0, st => st
  | n + 1, st => searchFrom e w L ops n (step e w L ops st)

/-- Modelled from the spec: the initial search state for a golden graph
and a sampler seed state. -/
def initState {σ : Type} (golden : GateGraph) (s0 : σ) : SearchState σ :=
  ⟨golden, [], none, s0⟩

/-- Modelled from the spec: the Config record
{n_trials, seq_len, delay_weight, per-trial timeout, output directory}. -/
structure Config where
  n_trials : Nat
  seq_len : Nat
  delay_weight : ℚ
  timeout_per_trial : Nat
  out_dir : String
  deriving DecidableEq, Repr

/-- Modelled from the spec: caller-supplied invocation parameters, each
optional (README CLI table of `vop.py`). -/
structure Args where
  n_trials : Option Nat
  seq_len : Option Nat
  delay_weight : Option ℚ
  timeout_per_trial : Option Nat
  out_dir : Option String
  deriving DecidableEq, Repr

/-- Modelled from the spec: resolution of omitted invocation parameters
to the documented defaults `n_trials=60`, `seq_len=6`,
`delay_weight=0.1`, and the CLI defaults for timeout and `bo_out`. -/
def resolveConfig (a : Args) : Config :=
  { n_trials := a.n_trials.getD 60
    seq_len := a.seq_len.getD 6
    delay_weight := a.delay_weight.getD (1 / 10)
    timeout_per_trial := a.timeout_per_trial.getD 120
    out_dir := a.out_dir.getD "bo_out" }

/-- Modelled from the spec: per-category failure counts reported when no
trial is valid. -/
structure FailureCounts where
  timeouts : Nat
  execErrors : Nat
  notEquivalents : Nat
  verifyUnknowns : Nat
  verifyTimeouts : Nat
  deriving DecidableEq, Repr

/-- Count the failures of each category over a history. -/
def failureCounts (h : List Trial) : FailureCounts :=
  { timeouts := (h.filter (fun t => t.failure = some .timedOut)).length
    execErrors := (h.filter (fun t => t.failure = some .execError)).length
    notEquivalents := (h.filter (fun t => t.failure = some .notEquivalent)).length
    verifyUnknowns := (h.filter (fun t => t.failure = some .verifyUnknown)).length
    verifyTimeouts := (h.filter (fun t => t.failure = some .verifyTimeout)).length }

/-- Modelled from the spec: structured failures of the whole
optimization: fatal conversion failure, or exhaustion of the budget with
no valid trial. -/
inductive OptError where
  | conversionError (msg : String)
  | optimizationExhausted (counts : FailureCounts)
  deriving DecidableEq, Repr

/-- Modelled from the spec: the summary record persisted by the result
materializer (wall-clock execution time is outside the model). -/
structure Summary where
  best_cost : ℚ
  best_sequence : Sequence
  trials_completed : Nat
  trials_valid : Nat
  deriving DecidableEq, Repr

/-- Modelled from the spec: the whole optimization run. Conversion runs
exactly once; `ConversionError` aborts before any trial; otherwise the
search always completes its budget, and the result is either the best
valid trial's summary or `OptimizationExhausted` with per-category
failure counts. -/
def optimize {σ : Type} (e : Engine) (ops : SamplerOps σ) (s0 : σ)
    (cfg : Config) (design : String) (top : Option String) :
    Except OptError Summary :=
  match e.convert design top with
  | .error m => .error (.conversionError m)
  | .ok golden =>
      let final := searchFrom e cfg.delay_weight cfg.seq_len ops cfg.n_trials
        (initState golden s0)
      match final.best with
      | none => .error (.optimizationExhausted (failureCounts final.history))
      | some b =>
          .ok { best_cost := trialCost b
                best_sequence := b.sequence
                trials_completed := final.history.length
                trials_valid := (final.history.filter (fun t => t.valid)).length }

/-- The search-state invariant of §3: the golden graph is never replaced
or mutated; a Trial's cost is defined only if its validity flag is true,
and every valid trial's graph is functionally equivalent to the golden
graph; the best trial, whenever one exists, is a valid recorded trial of
minimum cost among all valid trials recorded so far. -/
def Inv {σ : Type} (g0 : GateGraph) (st : SearchState σ) : Prop :=
  st.golden = g0 ∧
  (∀ t ∈ st.history,
    (t.valid = false → t.cost = none) ∧
    (t.valid = true → ∃ g, t.graph = some g ∧ funEquiv g0 g)) ∧
  (match st.best with
   | none => ∀ t ∈ st.history, t.valid = false
   | some b => b ∈ st.history ∧ b.valid = true ∧
       ∀ t ∈ st.history, t.valid = true → trialCost b ≤ trialCost t)

/-- A concrete gate graph: a single two-input AND gate (truth table of
`a ∧ b` over the four input assignments), the golden graph of the spec's
Scenario A. -/
def gA : GateGraph := ⟨2, 1, 1, 1, [[false], [false], [false], [true]]⟩

/-- A concrete graph with the same statistics as `gA` but different
output arity bookkeeping, for exercising purity of the evaluator. -/
def gB : GateGraph := ⟨2, 2, 1, 1, [[false, false], [true, false], [true, false], [true, true]]⟩

/-- A concrete graph with the same gate count as `gA` but more logic
levels. -/
def gC : GateGraph := ⟨2, 1, 1, 3, [[false], [false], [false], [true]]⟩

/-- A concrete equivalence check by exhaustive truth-table comparison
(the independent oracle of §8). -/
def tableCheck (g c : GateGraph) : VerifyOutcome :=
  if funEquiv g c then .equivalent else .notEquivalent

/-- A concrete engine: conversion always yields `gA`, pass application is
the identity, equivalence is checked by exhaustive table comparison. -/
def engC : Engine where
  convert := fun _ _ => .ok gA
  applyPasses := fun g _ => .ok g
  checkEquiv := tableCheck
  equiv_conclusive := by
    intro g c h
    unfold tableCheck at h
    split at h
    · assumption
    · exact absurd h (by simp)

/-- A concrete engine whose every pass application hits the per-trial
timeout, for exercising failure recovery. -/
def engT : Engine where
  convert := fun _ _ => .ok gA
  applyPasses := fun _ _ => .timedOut
  checkEquiv := tableCheck
  equiv_conclusive := by
    intro g c h
    unfold tableCheck at h
    split at h
    · assumption
    · exact absurd h (by simp)

/-- A concrete deterministic sampler: proposes the all-no-op sequence of
the requested length and counts proposals in its state. -/
def opsC : SamplerOps Nat :=
  ⟨fun s L => (List.replicate L "", s + 1), fun s _ _ => s⟩

/-- A concrete small configuration used by the witnesses. -/
def cfgC : Config := ⟨2, 2, 1 / 10, 120, "bo_out"⟩

end Vop

namespace Vop

lemma runTrial_valid_spec (e : Engine) (w : ℚ) (g0 : GateGraph) (seq : Sequence)
    (h : (runTrial e w g0 seq).valid = true) :
    ∃ g, e.applyPasses g0 seq = ExecOutcome.ok g ∧
      e.checkEquiv g0 g = VerifyOutcome.equivalent ∧
      (runTrial e w g0 seq).graph = some g ∧
      (runTrial e w g0 seq).cost = some (qor w g) := by
  cases hap : e.applyPasses g0 seq with
  | timedOut => simp [runTrial, hap] at h
  | execError => simp [runTrial, hap] at h
  | ok g =>
      cases hcv : e.checkEquiv g0 g with
      | equivalent => refine ⟨g, ?_, hcv, ?_, ?_⟩ <;> simp [runTrial, hap, hcv]
      | notEquivalent => simp [runTrial, hap, hcv] at h
      | unknown => simp [runTrial, hap, hcv] at h
      | timedOut => simp [runTrial, hap, hcv] at h

lemma runTrial_invalid_cost (e : Engine) (w : ℚ) (g0 : GateGraph) (seq : Sequence)
    (h : (runTrial e w g0 seq).valid = false) :
    (runTrial e w g0 seq).cost = none := by
  cases hap : e.applyPasses g0 seq with
  | timedOut => simp [runTrial, hap]
  | execError => simp [runTrial, hap]
  | ok g =>
      cases hcv : e.checkEquiv g0 g with
      | equivalent => simp [runTrial, hap, hcv] at h
      | notEquivalent => simp [runTrial, hap, hcv]
      | unknown => simp [runTrial, hap, hcv]
      | timedOut => simp [runTrial, hap, hcv]

lemma runTrial_sequence (e : Engine) (w : ℚ) (g0 : GateGraph) (seq : Sequence) :
    (runTrial e w g0 seq).sequence = seq := by
  cases hap : e.applyPasses g0 seq with
  | timedOut => simp [runTrial, hap]
  | execError => simp [runTrial, hap]
  | ok g => cases hcv : e.checkEquiv g0 g <;> simp [runTrial, hap, hcv]

lemma inv_step {σ : Type} (e : Engine) (w : ℚ) (L : Nat) (ops : SamplerOps σ)
    (g0 : GateGraph) (st : SearchState σ) (h : Inv g0 st) :
    Inv g0 (step e w L ops st) := by
  obtain ⟨hg, hhist, hbest⟩ := h
  subst hg
  unfold step Inv
  dsimp only
  refine ⟨rfl, ?_, ?_⟩
  · intro t ht
    rw [List.mem_append, List.mem_singleton] at ht
    rcases ht with ht | ht
    · exact hhist t ht
    · subst ht
      refine ⟨runTrial_invalid_cost e w _ _, fun hv => ?_⟩
      obtain ⟨g, _, hcv, hgr, _⟩ := runTrial_valid_spec e w _ _ hv
      exact ⟨g, hgr, e.equiv_conclusive _ _ hcv⟩
  · cases hv : (runTrial e w st.golden (ops.propose st.sampler L).1).valid with
    | false =>
        simp only [hv, Bool.false_eq_true, if_false]
        cases hb : st.best with
        | none =>
            rw [hb] at hbest
            intro t ht
            rw [List.mem_append, List.mem_singleton] at ht
            rcases ht with ht | ht
            · exact hbest t ht
            · subst ht; exact hv
        | some b =>
            rw [hb] at hbest
            obtain ⟨hmem, hval, hmin⟩ := hbest
            refine ⟨List.mem_append_left _ hmem, hval, ?_⟩
            intro t ht htv
            rw [List.mem_append, List.mem_singleton] at ht
            rcases ht with ht | ht
            · exact hmin t ht htv
            · subst ht; rw [hv] at htv; simp at htv
    | true =>
        simp only [hv, if_true]
        cases hb : st.best with
        | none =>
            rw [hb] at hbest
            refine ⟨List.mem_append_right _ (List.mem_singleton.mpr rfl), hv, ?_⟩
            intro t ht htv
            rw [List.mem_append, List.mem_singleton] at ht
            rcases ht with ht | ht
            · exact absurd htv (by rw [hbest t ht]; simp)
            · subst ht; exact le_refl _
        | some b =>
            rw [hb] at hbest
            obtain ⟨hmem, hval, hmin⟩ := hbest
            by_cases hlt :
                trialCost (runTrial e w st.golden (ops.propose st.sampler L).1) < trialCost b
            · simp only [hlt, if_true]
              refine ⟨List.mem_append_right _ (List.mem_singleton.mpr rfl), hv, ?_⟩
              intro t ht htv
              rw [List.mem_append, List.mem_singleton] at ht
              rcases ht with ht | ht
              · exact le_trans hlt.le (hmin t ht htv)
              · subst ht; exact le_refl _
            · simp only [hlt, if_false]
              refine ⟨List.mem_append_left _ hmem, hval, ?_⟩
              intro t ht htv
              rw [List.mem_append, List.mem_singleton] at ht
              rcases ht with ht | ht
              · exact hmin t ht htv
              · subst ht; exact le_of_not_lt hlt

lemma inv_searchFrom {σ : Type} (e : Engine) (w : ℚ) (L : Nat) (ops : SamplerOps σ)
    (g0 : GateGraph) :
    ∀ (n : Nat) (st : SearchState σ), Inv g0 st → Inv g0 (searchFrom e w L ops n st) := by
  intro n
  induction n with
  | zero => intro st h; exact h
  | succ m ih => intro st h; exact ih _ (inv_step e w L ops g0 st h)

lemma inv_initState {σ : Type} (g0 : GateGraph) (s0 : σ) :
    Inv g0 (initState g0 s0) := by
  unfold Inv initState
  exact ⟨rfl, by simp, by simp⟩

lemma searchFrom_history_length {σ : Type} (e : Engine) (w : ℚ) (L : Nat)
    (ops : SamplerOps σ) :
    ∀ (n : Nat) (st : SearchState σ),
      (searchFrom e w L ops n st).history.length = st.history.length + n := by
  intro n
  induction n with
  | zero => intro st; rfl
  | succ m ih =>
      intro st
      rw [searchFrom, ih]
      unfold step
      simp only [List.length_append, List.length_singleton]
      omega

end Vop

lemma CloudOpt.jsTrim_of_all_whitespace {s : String}
    (h : ∀ c ∈ s.data, CloudOpt.isJsWhitespace c = true) : CloudOpt.jsTrim s = "" := by
  unfold CloudOpt.jsTrim
  have h1 : s.data.dropWhile CloudOpt.isJsWhitespace = [] :=
    List.dropWhile_eq_nil_iff.mpr fun c hc => h c hc
  simp [h1]

/-- C9: for every input string that is empty or consists only of
whitespace, `runCloudOptimization` throws `'请输入Verilog代码'` before
performing any network request, so no optimization job is submitted for
blank code. -/
theorem c9_blank_code_rejected_before_network
    (env : CloudOpt.CloudEnv) (fuel : Nat) (s : String)
    (h : ∀ c ∈ s.data, CloudOpt.isJsWhitespace c = true) :
    CloudOpt.runCloudOptimization env fuel s =
      (.error "请输入Verilog代码", []) := by
  unfold CloudOpt.runCloudOptimization
  rw [CloudOpt.jsTrim_of_all_whitespace h]
  simp

/-- Witness for C9 at a concrete whitespace-only input and a concrete
environment. -/
theorem c9_blank_code_rejected_before_network_witness :
    CloudOpt.runCloudOptimization
      ⟨true, .ok "job_1", fun _ => .ok ⟨"running", ""⟩, .ok ⟨"completed", none, some "m"⟩⟩
      5 "  \n\t " = (.error "请输入Verilog代码", []) :=
  c9_blank_code_rejected_before_network _ 5 "  \n\t " (by decide)

/-- C10: whenever `runCloudOptimization` returns normally, the result has
status `'completed'`: a polled status of `'failed'` raises an exception
in the loop, and a fetched result whose status is not `'completed'`
raises an exception in `getOptimizationResult`, so a caller never
receives a non-completed result. -/
theorem c10_normal_return_is_completed
    (env : CloudOpt.CloudEnv) (fuel : Nat) (code : String)
    (r : CloudOpt.OptimizationResult) (log : List CloudOpt.ApiCall)
    (h : CloudOpt.runCloudOptimization env fuel code = (.ok r, log)) :
    r.status = "completed" ∧
    (∀ k sr, env.statusAt k = .ok sr → sr.status = "failed" →
      CloudOpt.pollStep env k = .error ("优化任务失败: " ++ sr.message)) := by
  constructor
  · unfold CloudOpt.runCloudOptimization at h
    split at h
    · simp at h
    · split at h
      · simp at h
      · split at h
        · simp at h
        · split at h
          · simp at h
          · split at h
            · simp at h
            · rename_i hres
              unfold CloudOpt.getOptimizationResult at hres
              split at hres
              · simp at hres
              · split at hres
                · simp at hres
                · rename_i hstat
                  simp only [Prod.mk.injEq, Except.ok.injEq] at h
                  push_neg at hstat
                  obtain ⟨hr1, -⟩ := h
                  injection hres with hr2
                  rw [← hr1, ← hr2]
                  exact hstat
  · intro k sr hk hfail
    unfold CloudOpt.pollStep
    rw [hk]
    have : sr.status ≠ "completed" := by rw [hfail]; decide
    simp [this, hfail]

/-- Witness for C10 at a concrete environment where the run completes. -/
theorem c10_normal_return_is_completed_witness :
    (⟨"completed", none, some "module m; endmodule"⟩ :
        CloudOpt.OptimizationResult).status = "completed" ∧
    (∀ k sr,
      (⟨true, .ok "job_1", fun _ => .ok ⟨"completed", "done"⟩,
        .ok ⟨"completed", none, some "module m; endmodule"⟩⟩ :
          CloudOpt.CloudEnv).statusAt k = .ok sr → sr.status = "failed" →
      CloudOpt.pollStep
        ⟨true, .ok "job_1", fun _ => .ok ⟨"completed", "done"⟩,
          .ok ⟨"completed", none, some "module m; endmodule"⟩⟩ k =
        .error ("优化任务失败: " ++ sr.message)) :=
  c10_normal_return_is_completed
    ⟨true, .ok "job_1", fun _ => .ok ⟨"completed", "done"⟩,
      .ok ⟨"completed", none, some "module m; endmodule"⟩⟩
    3 "module m; endmodule"
    ⟨"completed", none, some "module m; endmodule"⟩
    [.health, .submit, .statusQ, .resultQ] (by rfl)

open Vop

/-- C1: for every trial recorded as valid by the search, the transformed
gate graph is functionally equivalent to the golden gate graph for all
input assignments; a trial becomes valid only when the equivalence
verifier returns the conclusive `equivalent` verdict, and a verification
timeout, an `unknown` verdict or a proven non-equivalence each mark the
trial as a failure. -/
theorem c1_valid_trials_equivalent {σ : Type} (e : Engine) (w : ℚ) (L n : Nat)
    (ops : SamplerOps σ) (g0 : GateGraph) (s0 : σ) :
    (∀ t ∈ (searchFrom e w L ops n (initState g0 s0)).history,
        t.valid = true → ∃ g, t.graph = some g ∧ funEquiv g0 g) ∧
    (∀ seq, (runTrial e w g0 seq).valid = true →
        ∃ g, e.applyPasses g0 seq = ExecOutcome.ok g ∧
          e.checkEquiv g0 g = VerifyOutcome.equivalent) ∧
    (∀ seq g, e.applyPasses g0 seq = ExecOutcome.ok g →
        (e.checkEquiv g0 g = VerifyOutcome.timedOut ∨
         e.checkEquiv g0 g = VerifyOutcome.unknown ∨
         e.checkEquiv g0 g = VerifyOutcome.notEquivalent) →
        (runTrial e w g0 seq).valid = false) := by
  refine ⟨?_, ?_, ?_⟩
  · intro t ht hv
    have hinv := inv_searchFrom e w L ops g0 n _ (inv_initState g0 s0)
    exact (hinv.2.1 t ht).2 hv
  · intro seq hv
    obtain ⟨g, hap, hcv, -, -⟩ := runTrial_valid_spec e w g0 seq hv
    exact ⟨g, hap, hcv⟩
  · intro seq g hap hcv
    rcases hcv with hcv | hcv | hcv <;> simp [runTrial, hap, hcv]

/-- Witness for C1: in a concrete one-trial run the recorded trial is
valid and its graph is functionally equivalent to the golden graph. -/
theorem c1_valid_trials_equivalent_witness :
    ∃ g, (runTrial engC (1 / 10) gA (List.replicate 2 "")).graph = some g ∧
      funEquiv gA g :=
  (c1_valid_trials_equivalent engC (1 / 10) 2 1 opsC gA 0).1
    (runTrial engC (1 / 10) gA (List.replicate 2 ""))
    (List.mem_singleton.mpr rfl) (by decide)

/-- C2: in every reachable search state the invariant holds: the golden
graph is the one created at the start, a Trial's cost is defined only if
its validity flag is true, and the best trial, whenever one exists, is a
recorded valid trial of minimum cost among all valid trials so far. -/
theorem c2_search_state_invariants {σ : Type} (e : Engine) (w : ℚ) (L n : Nat)
    (ops : SamplerOps σ) (g0 : GateGraph) (s0 : σ) :
    Inv g0 (searchFrom e w L ops n (initState g0 s0)) :=
  inv_searchFrom e w L ops g0 n _ (inv_initState g0 s0)

/-- Witness for C2 at a concrete engine, sampler and budget. -/
theorem c2_search_state_invariants_witness :
    Inv gA (searchFrom engC (1 / 10) 2 opsC 2 (initState gA 0)) :=
  c2_search_state_invariants engC (1 / 10) 2 2 opsC gA 0

/-- C3: the search always completes its configured budget: the history
after `n` trials has length `n` regardless of per-trial failures; a
failed trial is recorded as invalid and the sampler is updated with the
penalty cost; and the whole run aborts with `ConversionError` exactly
when conversion fails. -/
theorem c3_trial_failures_recovered {σ : Type} (e : Engine) (w : ℚ) (L n : Nat)
    (ops : SamplerOps σ) (g0 : GateGraph) (s0 : σ) (cfg : Config)
    (design : String) (top : Option String) :
    ((searchFrom e w L ops n (initState g0 s0)).history.length = n) ∧
    (∀ st : SearchState σ,
      (runTrial e w st.golden (ops.propose st.sampler L).1).valid = false →
        (step e w L ops st).history =
          st.history ++ [runTrial e w st.golden (ops.propose st.sampler L).1] ∧
        (step e w L ops st).sampler =
          ops.observe (ops.propose st.sampler L).2
            (runTrial e w st.golden (ops.propose st.sampler L).1).sequence PENALTY) ∧
    (∀ m, optimize e ops s0 cfg design top = .error (OptError.conversionError m) ↔
        e.convert design top = .error m) := by
  refine ⟨?_, ?_, ?_⟩
  · rw [searchFrom_history_length]; simp [initState]
  · intro st hv
    refine ⟨rfl, ?_⟩
    show ops.observe _ _ (trialCost _) = _
    rw [trialCost, runTrial_invalid_cost e w st.golden _ hv]
    rfl
  · intro m
    cases hc : e.convert design top with
    | error m2 => simp [optimize, hc]
    | ok g =>
        simp only [optimize, hc]
        constructor
        · intro h
          split at h <;> simp at h
        · intro h
          simp at h

/-- Witness for C3: a concrete always-timing-out engine records the
failed trial as invalid and feeds the penalty to the sampler. -/
theorem c3_trial_failures_recovered_witness :
    (step engT (1 / 10) 2 opsC (initState gA 0)).history =
      (initState gA 0 : SearchState Nat).history ++
        [runTrial engT (1 / 10) (initState gA 0 : SearchState Nat).golden
          (opsC.propose (initState gA 0 : SearchState Nat).sampler 2).1] ∧
    (step engT (1 / 10) 2 opsC (initState gA 0)).sampler =
      opsC.observe (opsC.propose (initState gA 0 : SearchState Nat).sampler 2).2
        (runTrial engT (1 / 10) (initState gA 0 : SearchState Nat).golden
          (opsC.propose (initState gA 0 : SearchState Nat).sampler 2).1).sequence
        PENALTY :=
  (c3_trial_failures_recovered engT (1 / 10) 2 0 opsC gA 0 cfgC "m" none).2.1
    (initState gA 0) (by decide)

/-- C4: the quality evaluator is the pure function
`cost = gate_count + delay_weight × level_count`: two graphs with
identical statistics get the same cost, and the cost is exactly that
formula (evaluation is a pure Lean function, so it has no side
effects). -/
theorem c4_qor_pure_function (w : ℚ) (g1 g2 : GateGraph)
    (hg : g1.gate_count = g2.gate_count) (hl : g1.level_count = g2.level_count) :
    qor w g1 = qor w g2 ∧
    qor w g1 = (g1.gate_count : ℚ) + w * (g1.level_count : ℚ) := by
  constructor
  · unfold qor; rw [hg, hl]
  · rfl

/-- Witness for C4: two concretely different graphs with identical
statistics get the same cost. -/
theorem c4_qor_pure_function_witness :
    qor (1 / 10) gA = qor (1 / 10) gB ∧
    qor (1 / 10) gA = (gA.gate_count : ℚ) + (1 / 10) * (gA.level_count : ℚ) :=
  c4_qor_pure_function (1 / 10) gA gB rfl rfl

/-- C5: cost monotonicity: with equal gate counts and fewer levels the
cost is no larger for every nonnegative delay weight, and at
`delay_weight = 0` the cost reduces to the gate count alone. -/
theorem c5_cost_monotonicity (w : ℚ) (g1 g2 : GateGraph) (hw : 0 ≤ w)
    (hg : g1.gate_count = g2.gate_count) (hl : g1.level_count < g2.level_count) :
    qor w g1 ≤ qor w g2 ∧ ∀ g : GateGraph, qor 0 g = (g.gate_count : ℚ) := by
  constructor
  · unfold qor
    rw [hg]
    have h1 : (g1.level_count : ℚ) ≤ (g2.level_count : ℚ) := by exact_mod_cast hl.le
    have h2 := mul_le_mul_of_nonneg_left h1 hw
    linarith
  · intro g; simp [qor]

/-- Witness for C5 on two concrete graphs with equal gate count and
strictly fewer levels. -/
theorem c5_cost_monotonicity_witness :
    qor (1 / 10) gA ≤ qor (1 / 10) gC ∧ ∀ g : GateGraph, qor 0 g = (g.gate_count : ℚ) :=
  c5_cost_monotonicity (1 / 10) gA gC (by norm_num) rfl (by decide)

/-- C6: when no trial in the whole budget is valid, the optimizer
reports `OptimizationExhausted` with the per-category failure counts and
never returns a success summary (so it cannot silently hand back the
unoptimized input as a result). -/
theorem c6_exhausted_reported {σ : Type} (e : Engine) (ops : SamplerOps σ) (s0 : σ)
    (cfg : Config) (design : String) (top : Option String) (golden : GateGraph)
    (hconv : e.convert design top = .ok golden)
    (hall : ∀ t ∈ (searchFrom e cfg.delay_weight cfg.seq_len ops cfg.n_trials
        (initState golden s0)).history, t.valid = false) :
    optimize e ops s0 cfg design top =
      .error (OptError.optimizationExhausted (failureCounts
        (searchFrom e cfg.delay_weight cfg.seq_len ops cfg.n_trials
          (initState golden s0)).history)) ∧
    ∀ s : Summary, optimize e ops s0 cfg design top ≠ .ok s := by
  have hbest : (searchFrom e cfg.delay_weight cfg.seq_len ops cfg.n_trials
      (initState golden s0)).best = none := by
    obtain ⟨-, -, hbestInv⟩ := inv_searchFrom e cfg.delay_weight cfg.seq_len ops golden
      cfg.n_trials _ (inv_initState golden s0)
    cases hb : (searchFrom e cfg.delay_weight cfg.seq_len ops cfg.n_trials
        (initState golden s0)).best with
    | none => rfl
    | some b =>
        simp only [hb] at hbestInv
        obtain ⟨hmem, hval, -⟩ := hbestInv
        exact absurd hval (by rw [hall b hmem]; simp)
  have hmain : optimize e ops s0 cfg design top =
      .error (OptError.optimizationExhausted (failureCounts
        (searchFrom e cfg.delay_weight cfg.seq_len ops cfg.n_trials
          (initState golden s0)).history)) := by
    simp [optimize, hconv, hbest]
  refine ⟨hmain, fun s h => ?_⟩
  rw [hmain] at h
  simp at h

/-- Witness for C6: the always-timing-out engine exhausts a 2-trial
budget and the optimizer reports exhaustion with two counted timeouts. -/
theorem c6_exhausted_reported_witness :
    optimize engT opsC 0 cfgC "m" none =
      .error (OptError.optimizationExhausted (failureCounts
        (searchFrom engT cfgC.delay_weight cfgC.seq_len opsC cfgC.n_trials
          (initState gA 0)).history)) ∧
    ∀ s : Summary, optimize engT opsC 0 cfgC "m" none ≠ .ok s :=
  c6_exhausted_reported engT opsC 0 cfgC "m" none gA rfl (by decide)

/-- C7: the model of the optimizer is a pure function of the design, the
sampler seed state and the configuration, so two runs with identical
inputs report identical `best_sequence` and `best_cost`. -/
theorem c7_deterministic {σ : Type} (e : Engine) (ops : SamplerOps σ) (s0 : σ)
    (cfg : Config) (design : String) (top : Option String)
    (r1 r2 : Except OptError Summary) (s1 s2 : Summary)
    (h1 : optimize e ops s0 cfg design top = r1)
    (h2 : optimize e ops s0 cfg design top = r2)
    (hs1 : r1 = .ok s1) (hs2 : r2 = .ok s2) :
    s1.best_sequence = s2.best_sequence ∧ s1.best_cost = s2.best_cost := by
  have h12 : Except.ok (ε := OptError) s1 = Except.ok s2 := by
    rw [← hs1, ← hs2, ← h1, ← h2]
  have hs : s1 = s2 := by injection h12
  rw [hs]
  exact ⟨rfl, rfl⟩

/-- Witness for C7: a concrete run evaluates to a concrete successful
summary, and two evaluations agree. -/
theorem c7_deterministic_witness :
    (⟨11 / 10, ["", ""], 2, 2⟩ : Summary).best_sequence =
      (⟨11 / 10, ["", ""], 2, 2⟩ : Summary).best_sequence ∧
    (⟨11 / 10, ["", ""], 2, 2⟩ : Summary).best_cost =
      (⟨11 / 10, ["", ""], 2, 2⟩ : Summary).best_cost :=
  c7_deterministic engC opsC 0 cfgC "m" none
    (.ok ⟨11 / 10, ["", ""], 2, 2⟩) (.ok ⟨11 / 10, ["", ""], 2, 2⟩)
    ⟨11 / 10, ["", ""], 2, 2⟩ ⟨11 / 10, ["", ""], 2, 2⟩
    (by simp [optimize, engC, cfgC, searchFrom, step, initState, opsC, runTrial,
        tableCheck, funEquiv, gA, trialCost, qor]; norm_num)
    (by simp [optimize, engC, cfgC, searchFrom, step, initState, opsC, runTrial,
        tableCheck, funEquiv, gA, trialCost, qor]; norm_num)
    rfl rfl

/-- C8: when the caller omits them, the invocation parameters consumed
by the core resolve to the defaults `n_trials = 60`, `seq_len = 6` and
`delay_weight = 0.1`. -/
theorem c8_invocation_defaults (a : Args) :
    (a.n_trials = none → (resolveConfig a).n_trials = 60) ∧
    (a.seq_len = none → (resolveConfig a).seq_len = 6) ∧
    (a.delay_weight = none → (resolveConfig a).delay_weight = 1 / 10) := by
  refine ⟨fun h => ?_, fun h => ?_, fun h => ?_⟩ <;> simp [resolveConfig, h]

/-- Witness for C8 on the fully-omitted argument record. -/
theorem c8_invocation_defaults_witness :
    (resolveConfig ⟨none, none, none, none, none⟩).n_trials = 60 ∧
    (resolveConfig ⟨none, none, none, none, none⟩).seq_len = 6 ∧
    (resolveConfig ⟨none, none, none, none, none⟩).delay_weight = 1 / 10 :=
  ⟨(c8_invocation_defaults ⟨none, none, none, none, none⟩).1 rfl,
   (c8_invocation_defaults ⟨none, none, none, none, none⟩).2.1 rfl,
   (c8_invocation_defaults ⟨none, none, none, none, none⟩).2.2 rfl⟩
